import Mathlib

/-!
Verification development for the membership-gated vote ledger of the
Telegram voting bot in `main.py`.

The Python module keeps its state in module-level dictionaries:

  * `VOTES_TRACKER : {user_id: {channel_id: {message_id: VoteState}}}`
  * `VOTES_COUNT   : {channel_id: {message_id: count}}` (a `defaultdict(int)`)
  * `MEMBERSHIP_CACHE : {user_id: {channel_id: (is_member, last_check_time)}}`
  * the PTB job queue, holding at most the named revocation re-check jobs.

We embed this state shallowly: the nested vote-tracker dictionaries become a
list of `VoteRec` entries (one entry per `(user, channel, message)` key that is
present), `VOTES_COUNT` becomes a total function with default `0` (matching
`defaultdict(int)`), the membership cache becomes a partial map, and the job
queue a list of named jobs.  Time is modelled in seconds as `Int`
(`CACHE_DURATION = timedelta(minutes=5)` becomes `300`).  The Telegram
`get_chat_member` call is modelled by an explicit `OracleResult` input: either
a definitive member status, or one of the exception classes the code catches
(`Forbidden`, `BadRequest`, or any other exception).
-/

/-- `CACHE_DURATION = timedelta(minutes=5)`, in seconds. -/
def CACHE_DURATION : Int := 300

/-- The member statuses the code compares against
(`telegram.constants.ChatMemberStatus`). -/
inductive ChatMemberStatus
  | member
  | administrator
  | creator
  | restricted
  | left
  | banned
deriving DecidableEq, Repr

/-- Outcome of one `context.bot.get_chat_member` call as observed by
`check_user_membership`: a status, or one of the caught exception classes. -/
inductive OracleResult
  | ok (status : ChatMemberStatus)
  | forbidden
  | badRequest
  | otherError
deriving DecidableEq, Repr

/-- The membership classification at `main.py` lines 177-182:
`status in (MEMBER, ADMINISTRATOR, CREATOR, RESTRICTED)`. -/
def statusIsMember : ChatMemberStatus → Bool
  | .member => true
  | .administrator => true
  | .creator => true
  | .restricted => true
  | .left => false
  | .banned => false

/-- `MEMBERSHIP_CACHE`: user id ↦ channel id ↦ `(is_member, last_check_time)`. -/
abbrev MemCache := Int → Int → Option (Bool × Int)

/-- `MEMBERSHIP_CACHE[user_id][channel_id] = (is_member, now)` (line 185). -/
def cachePut (cache : MemCache) (userId channelId : Int) (v : Bool × Int) : MemCache :=
  fun u0 c0 => if u0 = userId ∧ c0 = channelId then some v else cache u0 c0

/-- `invalidate_membership_cache` (lines 196-200): deletes the entry for
`(user_id, channel_id)` if present. -/
def invalidate_membership_cache (cache : MemCache) (userId channelId : Int) : MemCache :=
  fun u0 c0 => if u0 = userId ∧ c0 = channelId then none else cache u0 c0

/-- The `try`/`except` block of `check_user_membership` (lines 173-193): query
the oracle; on a definitive answer classify the status and overwrite the cache
entry with the fresh observation; on `Forbidden`/`BadRequest` or any other
exception return `False` and leave the cache untouched.  The returned pair
`(is_member, url)` is the Python function's return value; the updated cache is
the side effect on `MEMBERSHIP_CACHE`. -/
def membershipOracleBranch (cache : MemCache) (now : Int) (oracle : OracleResult)
    (url : Option String) (userId channelId : Int) : (Bool × Option String) × MemCache :=
  match oracle with
  | .ok status =>
      let m := statusIsMember status
      ((m, url), cachePut cache userId channelId (m, now))
  | .forbidden => ((false, url), cache)
  | .badRequest => ((false, url), cache)
  | .otherError => ((false, url), cache)

/-- `check_user_membership` (lines 159-193).  With `useCache = true` a cache
entry younger than `CACHE_DURATION` is returned as-is; otherwise the oracle is
consulted via `membershipOracleBranch`.  `url` is the channel url computed by
`get_channel_url`, which the function passes through unchanged in every
branch. -/
def check_user_membership (cache : MemCache) (now : Int) (userId channelId : Int)
    (useCache : Bool) (oracle : OracleResult) (url : Option String) :
    (Bool × Option String) × MemCache :=
  if useCache then
    match cache userId channelId with
    | some (isMem, last) =>
        if now - last < CACHE_DURATION then ((isMem, url), cache)
        else membershipOracleBranch cache now oracle url userId channelId
    | none => membershipOracleBranch cache now oracle url userId channelId
  else membershipOracleBranch cache now oracle url userId channelId

/-- One entry of `VOTES_TRACKER`: the key `(user_id, channel_id, message_id)`
plus the stored `VoteState` timestamp (`VoteState.timestamp`). -/
structure VoteRec where
  user : Int
  channel : Int
  message : Int
  castAt : Int
deriving DecidableEq, Repr

/-- The flattened `VOTES_TRACKER` nested dictionary: one record per present
`(user, channel, message)` key. -/
abbrev Tracker := List VoteRec

/-- Does a record match the tracker key `(u, c, m)`? -/
def keyMatch (u c m : Int) (r : VoteRec) : Bool :=
  decide (r.user = u ∧ r.channel = c ∧ r.message = m)

/-- Does a record belong to post `(c, m)`? -/
def postMatch (c m : Int) (r : VoteRec) : Bool :=
  decide (r.channel = c ∧ r.message = m)

/-- `message_id in VOTES_TRACKER.get(user_id, {}).get(channel_id, {})`
(lines 579 and 614). -/
def trackerHas (t : Tracker) (u c m : Int) : Bool :=
  t.any (keyMatch u c m)

/-- `del VOTES_TRACKER[user_id][channel_id][message_id]` (line 580). -/
def trackerRemove (t : Tracker) (u c m : Int) : Tracker :=
  t.filter (fun r => !(keyMatch u c m r))

/-- The number of vote records currently held for post `(c, m)`. -/
def numRecords (t : Tracker) (c m : Int) : Nat :=
  (t.filter (postMatch c m)).length

/-- `VOTES_COUNT`: channel id ↦ message id ↦ count, default `0`
(`defaultdict(lambda: defaultdict(int))`). -/
abbrev Counts := Int → Int → Int

/-- `VOTES_COUNT[channel_id][message_id] = v`. -/
def countsSet (f : Counts) (c m : Int) (v : Int) : Counts :=
  fun c0 m0 => if c0 = c ∧ m0 = m then v else f c0 m0

/-- One pending job on the PTB job queue, as created at lines 652-657:
its `name` string plus the `data` dictionary fields. -/
structure RecheckJob where
  name : String
  userId : Int
  channelId : Int
  messageId : Int
deriving DecidableEq, Repr

/-- `job_name = f"recheck_\x7buser_id\x7d_\x7bchannel_id\x7d_\x7bmessage_id\x7d"`
(line 644). -/
def jobName (u c m : Int) : String :=
  "recheck_" ++ toString u ++ "_" ++ toString c ++ "_" ++ toString m

/-- Lines 647-657: `get_jobs_by_name(job_name)`, `schedule_removal()` on each,
then `run_once(..., name=job_name)` — i.e. drop every pending job carrying this
name and append the fresh one. -/
def scheduleRecheck (jobs : List RecheckJob) (u c m : Int) : List RecheckJob :=
  (jobs.filter (fun j => !(decide (j.name = jobName u c m)))) ++
    [⟨jobName u c m, u, c, m⟩]

/-- Number of pending jobs carrying a given name. -/
def countJobsNamed (jobs : List RecheckJob) (n : String) : Nat :=
  (jobs.filter (fun j => decide (j.name = n))).length

/-- The module-level mutable state of `main.py` that the ledger touches. -/
structure BotState where
  votesTracker : Tracker
  votesCount : Counts
  membershipCache : MemCache
  jobs : List RecheckJob

/-- The user-visible outcome of a vote click (the `query.answer` alert sent by
`handle_vote`): already voted, not a member, or success with the new count. -/
inductive VoteOutcome
  | alreadyVoted
  | notEligible
  | accepted (newCount : Int)
deriving DecidableEq, Repr

/-- `handle_vote` (lines 594-659), for an update whose callback data decoded to
`(channelId, messageId)` and sender `userId`:
1. line 614: if the tracker already has the key, answer "already voted" and
   return with no state change;
2. line 619: `check_user_membership(..., use_cache=False)` — a forced oracle
   round trip (`oracle` is that call's result, `url` the channel url);
3. lines 621-630: a non-member is rejected;
4. lines 632-635: insert the `VoteState` record and increment
   `VOTES_COUNT[channel][message]`;
5. lines 643-657: debounced scheduling of the membership re-check job. -/
def handle_vote (s : BotState) (userId channelId messageId : Int)
    (oracle : OracleResult) (url : Option String) (now : Int) : BotState × VoteOutcome :=
  if trackerHas s.votesTracker userId channelId messageId then
    (s, .alreadyVoted)
  else
    let res := check_user_membership s.membershipCache now userId channelId false oracle url
    let s1 : BotState := { s with membershipCache := res.2 }
    if res.1.1 = false then
      (s1, .notEligible)
    else
      let newCount := s1.votesCount channelId messageId + 1
      (⟨⟨userId, channelId, messageId, now⟩ :: s1.votesTracker,
        countsSet s1.votesCount channelId messageId newCount,
        s1.membershipCache,
        scheduleRecheck s1.jobs userId channelId messageId⟩,
       .accepted newCount)

/-- The revocation block of `schedule_membership_recheck_job` (lines 579-591):
if a vote record exists, delete it and clamp-decrement the count
(`max(0, VOTES_COUNT[channel_id][message_id] - 1)`), reporting that a vote was
removed; otherwise leave everything unchanged. -/
def revoke_vote (s : BotState) (userId channelId messageId : Int) : BotState × Bool :=
  if trackerHas s.votesTracker userId channelId messageId then
    (⟨trackerRemove s.votesTracker userId channelId messageId,
      countsSet s.votesCount channelId messageId
        (max 0 (s.votesCount channelId messageId - 1)),
      s.membershipCache,
      s.jobs⟩,
     true)
  else
    (s, false)

/-- `schedule_membership_recheck_job` (lines 560-591): invalidate the cache
entry, re-check membership with `use_cache=False`, and if the user is reported
as not a member run the revocation block.  Note that an oracle *failure* also
yields `is_member = False` here, so it takes the revocation path. -/
def schedule_membership_recheck_job (s : BotState) (userId channelId messageId : Int)
    (oracle : OracleResult) (url : Option String) (now : Int) : BotState :=
  let cache0 := invalidate_membership_cache s.membershipCache userId channelId
  let res := check_user_membership cache0 now userId channelId false oracle url
  let s1 : BotState := { s with membershipCache := res.2 }
  if res.1.1 = false then
    (revoke_vote s1 userId channelId messageId).1
  else
    s1

/-- The operations that touch the ledger state, each carrying the external
inputs (oracle answer, channel url, wall-clock time) of that invocation. -/
inductive Op
  | vote (userId channelId messageId : Int)
      (oracle : OracleResult) (url : Option String) (now : Int)
  | recheck (userId channelId messageId : Int)
      (oracle : OracleResult) (url : Option String) (now : Int)
  | invalidate (userId channelId : Int)

/-- One operation applied to the state. -/
def step (s : BotState) : Op → BotState
  | .vote u c m oracle url now => (handle_vote s u c m oracle url now).1
  | .recheck u c m oracle url now => schedule_membership_recheck_job s u c m oracle url now
  | .invalidate u c =>
      ⟨s.votesTracker, s.votesCount,
       invalidate_membership_cache s.membershipCache u c, s.jobs⟩

/-- The module state at import time: every dictionary empty, no pending jobs. -/
def initState : BotState :=
  ⟨[], fun _ _ => 0, fun _ _ => none, []⟩

/-- Run a sequence of operations from the initial state. -/
def run (ops : List Op) : BotState :=
  ops.foldl step initState

/-- The tracker keys are pairwise distinct — the dictionary-ness of
`VOTES_TRACKER`. -/
def KeysNodup (t : Tracker) : Prop :=
  List.Pairwise
    (fun a b => ¬(a.user = b.user ∧ a.channel = b.channel ∧ a.message = b.message)) t

/-- `VOTES_COUNT[c][m]` always equals the number of vote records held for the
post `(c, m)`. -/
def CountsMatch (s : BotState) : Prop :=
  ∀ c m : Int, s.votesCount c m = (numRecords s.votesTracker c m : Int)

/-- The ledger invariant: distinct tracker keys, and the count derived from the
record set. -/
def VoteInv (s : BotState) : Prop :=
  KeysNodup s.votesTracker ∧ CountsMatch s

/-- At most one pending job per job name (the per-(post, user) debounce
invariant, keyed the way the code keys it: by the job name string). -/
def JobsBounded (s : BotState) : Prop :=
  ∀ n : String, countJobsNamed s.jobs n ≤ 1

/-! ### An interleaving model of concurrent `handle_vote` handlers

`handle_vote` is an `async` coroutine; under the asyncio event loop two
concurrently dispatched handlers interleave only at `await` points.  The
handler has awaits between the duplicate-vote check plus membership lookup
(lines 614-630) and nothing inside the registration block (lines 632-635 run
with no intervening `await`, and lines 643-657 only touch the job queue).  We
split the handler into two atomic phases — the check phase and the
registration phase — and let an arbitrary scheduler interleave the phases of
two handler instances.  This is conservative: it allows every interleaving the
event loop can produce for two clicks on the same post. -/

/-- The per-invocation inputs of one `handle_vote` handler instance. -/
structure TaskCtx where
  userId : Int
  channelId : Int
  messageId : Int
  oracle : OracleResult
  url : Option String
  now : Int

/-- The program counter of one in-flight `handle_vote` handler. -/
inductive Phase
  | start
  | checked
  | finished (outcome : VoteOutcome)
deriving DecidableEq, Repr

/-- One atomic step of a `handle_vote` handler instance: from `start` it runs
the duplicate check (line 614) and the membership check (line 619), finishing
early on rejection; from `checked` it runs the registration block (lines
632-635) and the job scheduling (lines 643-657). -/
def taskStep (s : BotState) (ctx : TaskCtx) : Phase → BotState × Phase
  | .start =>
      if trackerHas s.votesTracker ctx.userId ctx.channelId ctx.messageId then
        (s, .finished .alreadyVoted)
      else
        let res := check_user_membership s.membershipCache ctx.now ctx.userId
          ctx.channelId false ctx.oracle ctx.url
        let s1 : BotState := { s with membershipCache := res.2 }
        if res.1.1 = false then (s1, .finished .notEligible)
        else (s1, .checked)
  | .checked =>
      let newCount := s.votesCount ctx.channelId ctx.messageId + 1
      (⟨⟨ctx.userId, ctx.channelId, ctx.messageId, ctx.now⟩ :: s.votesTracker,
        countsSet s.votesCount ctx.channelId ctx.messageId newCount,
        s.membershipCache,
        scheduleRecheck s.jobs ctx.userId ctx.channelId ctx.messageId⟩,
       .finished (.accepted newCount))
  | .finished outcome => (s, .finished outcome)

/-- Run two handler instances under a schedule: `true` steps the first task,
`false` the second. -/
def runSched (c1 c2 : TaskCtx) : List Bool → BotState × Phase × Phase → BotState × Phase × Phase
  | [], st => st
  | b :: rest, (s, p1, p2) =>
      if b then
        let r := taskStep s c1 p1
        runSched c1 c2 rest (r.1, r.2, p2)
      else
        let r := taskStep s c2 p2
        runSched c1 c2 rest (r.1, p1, r.2)

/-- All interleavings of two two-phase tasks (each task steps twice, in
order). -/
def interleavings2 : List (List Bool) :=
  [[true, true, false, false], [true, false, true, false], [true, false, false, true],
   [false, true, true, false], [false, true, false, true], [false, false, true, true]]

/-- A concrete reachable state used to exercise the re-check job: user `1` has
a vote record on post `(2, 3)`, the count is `1`, and the debounced re-check
job for that vote is pending. -/
def c8state : BotState :=
  (handle_vote initState 1 2 3 (.ok .member) none 0).1

/-- The boolean the forced (`use_cache=False`) membership lookup evaluates to,
as a function of the oracle answer alone (lines 173-193): the status
classification on a definitive answer, `False` on every caught exception. -/
def oracleSaysMember : OracleResult → Bool
  | .ok status => statusIsMember status
  | .forbidden => false
  | .badRequest => false
  | .otherError => false

/-- The operation realizing `Revoke(P, U)` for post `(c, m)` and user `u`: a
fired re-check job for exactly that `(user, channel, message)` triple whose
forced membership lookup reports non-membership, so that line 577 takes the
revocation path.  Any other operation leaves `u`'s vote record on `(c, m)` in
place. -/
def RevokesVote (op : Op) (u c m : Int) : Prop :=
  ∃ oracle url now, op = Op.recheck u c m oracle url now ∧
    oracleSaysMember oracle = false

/-! ### Basic lemmas about the tracker and the job queue -/

theorem keyMatch_self (u c m t0 : Int) : keyMatch u c m ⟨u, c, m, t0⟩ = true := by
  simp [keyMatch]

theorem trackerHas_cons (r : VoteRec) (t : Tracker) (u c m : Int) :
    trackerHas (r :: t) u c m = (keyMatch u c m r || trackerHas t u c m) := by
  simp [trackerHas]

theorem numRecords_cons (r : VoteRec) (t : Tracker) (c m : Int) :
    numRecords (r :: t) c m =
      numRecords t c m + (if postMatch c m r then 1 else 0) := by
  cases h : postMatch c m r <;> simp [numRecords, List.filter_cons, h]

theorem trackerHas_eq_false_iff {t : Tracker} {u c m : Int} :
    trackerHas t u c m = false ↔ ∀ r ∈ t, keyMatch u c m r = false := by
  simp [trackerHas]

theorem numRecords_pos_of_has {t : Tracker} {u c m : Int}
    (h : trackerHas t u c m = true) : 1 ≤ numRecords t c m := by
  rcases List.any_eq_true.mp h with ⟨r, hr, hk⟩
  have hp : postMatch c m r = true := by
    rw [keyMatch] at hk
    rw [postMatch]
    simp only [decide_eq_true_eq] at hk ⊢
    exact ⟨hk.2.1, hk.2.2⟩
  have hmem : r ∈ t.filter (postMatch c m) := List.mem_filter.mpr ⟨hr, hp⟩
  have := List.length_pos_of_mem hmem
  rw [numRecords]
  omega

theorem keysNodup_remove (t : Tracker) (u c m : Int) (h : KeysNodup t) :
    KeysNodup (trackerRemove t u c m) :=
  List.Pairwise.sublist (List.filter_sublist t) h

theorem keysNodup_cons_of_not_has (t : Tracker) (u c m t0 : Int)
    (h : KeysNodup t) (hhas : trackerHas t u c m = false) :
    KeysNodup (⟨u, c, m, t0⟩ :: t) := by
  rw [KeysNodup, List.pairwise_cons]
  refine ⟨?_, h⟩
  intro b hb hkey
  have hb2 : keyMatch u c m b = false := trackerHas_eq_false_iff.mp hhas b hb
  rw [keyMatch] at hb2
  simp only [decide_eq_false_iff_not] at hb2
  exact hb2 ⟨hkey.1.symm, hkey.2.1.symm, hkey.2.2.symm⟩

theorem trackerRemove_cons_of_match (r : VoteRec) (t : Tracker) (u c m : Int)
    (h : keyMatch u c m r = true) :
    trackerRemove (r :: t) u c m = trackerRemove t u c m := by
  simp [trackerRemove, List.filter_cons, h]

theorem trackerRemove_cons_of_not_match (r : VoteRec) (t : Tracker) (u c m : Int)
    (h : keyMatch u c m r = false) :
    trackerRemove (r :: t) u c m = r :: trackerRemove t u c m := by
  simp [trackerRemove, List.filter_cons, h]

theorem numRecords_remove_self (t : Tracker) (u c m : Int)
    (hnd : KeysNodup t) (hhas : trackerHas t u c m = true) :
    numRecords (trackerRemove t u c m) c m + 1 = numRecords t c m := by
  induction t with
  | nil => simp [trackerHas] at hhas
  | cons r t ih =>
    rw [KeysNodup, List.pairwise_cons] at hnd
    cases hk : keyMatch u c m r with
    | true =>
      have hk2 := hk
      rw [keyMatch] at hk2
      simp only [decide_eq_true_eq] at hk2
      have hrest : trackerRemove t u c m = t := by
        rw [trackerRemove, List.filter_eq_self]
        intro b hb
        have : ¬(r.user = b.user ∧ r.channel = b.channel ∧ r.message = b.message) :=
          hnd.1 b hb
        rw [keyMatch]
        simp only [Bool.not_eq_true', decide_eq_false_iff_not]
        intro hbad
        exact this ⟨hk2.1.trans hbad.1.symm, hk2.2.1.trans hbad.2.1.symm,
          hk2.2.2.trans hbad.2.2.symm⟩
      have hpost : postMatch c m r = true := by
        rw [postMatch]
        simp only [decide_eq_true_eq]
        exact ⟨hk2.2.1, hk2.2.2⟩
      rw [trackerRemove_cons_of_match r t u c m hk, hrest, numRecords_cons, hpost]
      simp
    | false =>
      have hhas2 : trackerHas t u c m = true := by
        rw [trackerHas_cons, hk] at hhas
        simpa using hhas
      rw [trackerRemove_cons_of_not_match r t u c m hk, numRecords_cons,
        numRecords_cons]
      have := ih hnd.2 hhas2
      omega

theorem numRecords_remove_other (t : Tracker) (u c m c2 m2 : Int)
    (h : ¬(c2 = c ∧ m2 = m)) :
    numRecords (trackerRemove t u c m) c2 m2 = numRecords t c2 m2 := by
  induction t with
  | nil => rfl
  | cons r t ih =>
    cases hk : keyMatch u c m r with
    | true =>
      have hk2 := hk
      rw [keyMatch] at hk2
      simp only [decide_eq_true_eq] at hk2
      have hpost : postMatch c2 m2 r = false := by
        rw [postMatch]
        simp only [decide_eq_false_iff_not]
        intro hbad
        exact h ⟨hbad.1.symm.trans hk2.2.1, hbad.2.symm.trans hk2.2.2⟩
      rw [trackerRemove_cons_of_match r t u c m hk, numRecords_cons, hpost, ih]
      simp
    | false =>
      rw [trackerRemove_cons_of_not_match r t u c m hk, numRecords_cons,
        numRecords_cons, ih]

theorem trackerHas_remove_self (t : Tracker) (u c m : Int) :
    trackerHas (trackerRemove t u c m) u c m = false := by
  rw [trackerHas_eq_false_iff]
  intro r hr
  have := List.of_mem_filter hr
  simpa using this

theorem countJobsNamed_scheduleRecheck (jobs : List RecheckJob) (u c m : Int)
    (n : String) :
    countJobsNamed (scheduleRecheck jobs u c m) n =
      if n = jobName u c m then 1 else countJobsNamed jobs n := by
  rw [scheduleRecheck, countJobsNamed, List.filter_append, List.length_append,
    List.filter_filter]
  by_cases h : n = jobName u c m
  · have h1 : List.filter
        (fun a => decide (a.name = n) && !decide (a.name = jobName u c m)) jobs = [] := by
      rw [List.filter_eq_nil_iff]
      intro j _
      rw [← h]
      simp
    rw [h1]
    simp [List.filter_cons, h]
  · have h2 : List.filter
        (fun a => decide (a.name = n) && !decide (a.name = jobName u c m)) jobs =
        List.filter (fun a => decide (a.name = n)) jobs := by
      apply List.filter_congr
      intro j _
      by_cases hj : j.name = n
      · have hj2 : ¬(j.name = jobName u c m) := by
          rw [hj]; exact h
        simp [hj, hj2, h]
      · simp [hj]
    have h3 : (jobName u c m : String) ≠ n := fun hh => h hh.symm
    rw [h2]
    simp [List.filter_cons, h3, h, countJobsNamed]

/-! ### The central invariant: the stored count tracks the record set -/

theorem voteInv_initState : VoteInv initState := by
  constructor
  · exact List.Pairwise.nil
  · intro c m
    simp [initState, numRecords]

theorem voteInv_handle_vote (s : BotState) (u c m : Int) (oracle : OracleResult)
    (url : Option String) (now : Int) (h : VoteInv s) :
    VoteInv (handle_vote s u c m oracle url now).1 := by
  rw [handle_vote]
  by_cases hhas : trackerHas s.votesTracker u c m
  · simp only [hhas, if_true]
    exact h
  · rw [Bool.not_eq_true] at hhas
    cases hm : (check_user_membership s.membershipCache now u c false oracle url).1.1 with
    | false =>
      simp only [hhas, hm, Bool.false_eq_true, if_false, eq_self_iff_true, if_true]
      exact ⟨h.1, h.2⟩
    | true =>
      simp only [hhas, hm, Bool.false_eq_true, Bool.true_eq_false, if_false]
      constructor
      · exact keysNodup_cons_of_not_has _ u c m now h.1 hhas
      · intro c2 m2
        simp only [countsSet]
        by_cases hcm : c2 = c ∧ m2 = m
        · rcases hcm with ⟨rfl, rfl⟩
          simp only [and_self, if_true, numRecords_cons]
          have hpost : postMatch c2 m2 ⟨u, c2, m2, now⟩ = true := by
            simp [postMatch]
          rw [hpost, h.2 c2 m2, if_pos rfl]
          push_cast
          omega
        · simp only [hcm, if_false, numRecords_cons]
          have hpost : postMatch c2 m2 (⟨u, c, m, now⟩ : VoteRec) = false := by
            rw [postMatch]
            simp only [decide_eq_false_iff_not]
            intro hbad
            exact hcm ⟨hbad.1.symm, hbad.2.symm⟩
          rw [hpost, h.2 c2 m2]
          simp

theorem voteInv_revoke_vote (s : BotState) (u c m : Int) (h : VoteInv s) :
    VoteInv (revoke_vote s u c m).1 := by
  rw [revoke_vote]
  by_cases hhas : trackerHas s.votesTracker u c m
  · simp only [hhas, if_true]
    constructor
    · exact keysNodup_remove _ u c m h.1
    · intro c2 m2
      simp only [countsSet]
      by_cases hcm : c2 = c ∧ m2 = m
      · rcases hcm with ⟨rfl, rfl⟩
        simp only [and_self, if_true]
        have hrem := numRecords_remove_self s.votesTracker u c2 m2 h.1 hhas
        rw [h.2 c2 m2]
        have h1 : 1 ≤ numRecords s.votesTracker c2 m2 := numRecords_pos_of_has hhas
        rw [max_eq_right]
        · omega
        · omega
      · simp only [hcm, if_false]
        rw [h.2 c2 m2, numRecords_remove_other s.votesTracker u c m c2 m2 hcm]
  · rw [Bool.not_eq_true] at hhas
    simp only [hhas, Bool.false_eq_true, if_false]
    exact h

theorem voteInv_recheck (s : BotState) (u c m : Int) (oracle : OracleResult)
    (url : Option String) (now : Int) (h : VoteInv s) :
    VoteInv (schedule_membership_recheck_job s u c m oracle url now) := by
  rw [schedule_membership_recheck_job]
  by_cases hm :
      (check_user_membership (invalidate_membership_cache s.membershipCache u c)
        now u c false oracle url).1.1 = false
  · simp only [hm, if_true]
    exact voteInv_revoke_vote _ u c m ⟨h.1, h.2⟩
  · simp only [hm, if_false]
    exact ⟨h.1, h.2⟩

theorem voteInv_step (s : BotState) (op : Op) (h : VoteInv s) :
    VoteInv (step s op) := by
  cases op with
  | vote u c m oracle url now => exact voteInv_handle_vote s u c m oracle url now h
  | recheck u c m oracle url now => exact voteInv_recheck s u c m oracle url now h
  | invalidate u c => exact ⟨h.1, h.2⟩

theorem voteInv_foldl (ops : List Op) (s : BotState) (h : VoteInv s) :
    VoteInv (ops.foldl step s) := by
  induction ops generalizing s with
  | nil => exact h
  | cons op rest ih => exact ih (step s op) (voteInv_step s op h)

/-- Every state reachable from the initial module state by vote clicks,
re-check jobs and cache invalidations satisfies the ledger invariant. -/
theorem voteInv_run (ops : List Op) : VoteInv (run ops) :=
  voteInv_foldl ops initState voteInv_initState

/-! ### The job queue under runs -/

theorem check_user_membership_no_cache (cache : MemCache) (now : Int)
    (u c : Int) (oracle : OracleResult) (url : Option String) :
    check_user_membership cache now u c false oracle url =
      membershipOracleBranch cache now oracle url u c := rfl

theorem handle_vote_jobs (s : BotState) (u c m : Int) (oracle : OracleResult)
    (url : Option String) (now : Int) :
    (handle_vote s u c m oracle url now).1.jobs = s.jobs ∨
    (handle_vote s u c m oracle url now).1.jobs = scheduleRecheck s.jobs u c m := by
  rw [handle_vote]
  by_cases hhas : trackerHas s.votesTracker u c m
  · left
    simp [hhas]
  · rw [Bool.not_eq_true] at hhas
    cases hm : (check_user_membership s.membershipCache now u c false oracle url).1.1 with
    | false =>
      left
      simp only [hhas, hm, Bool.false_eq_true, if_false, eq_self_iff_true, if_true]
    | true =>
      right
      simp only [hhas, hm, Bool.false_eq_true, Bool.true_eq_false, if_false]

theorem recheck_job_jobs (s : BotState) (u c m : Int) (oracle : OracleResult)
    (url : Option String) (now : Int) :
    (schedule_membership_recheck_job s u c m oracle url now).jobs = s.jobs := by
  rw [schedule_membership_recheck_job]
  cases hm : (check_user_membership (invalidate_membership_cache s.membershipCache u c)
      now u c false oracle url).1.1 with
  | false =>
    simp only [hm, eq_self_iff_true, if_true]
    rw [revoke_vote]
    by_cases hhas : trackerHas s.votesTracker u c m
    · simp [hhas]
    · rw [Bool.not_eq_true] at hhas
      simp [hhas]
  | true =>
    simp only [hm, Bool.true_eq_false, if_false]

theorem jobsBounded_step (s : BotState) (op : Op) (h : JobsBounded s) :
    JobsBounded (step s op) := by
  cases op with
  | vote u c m oracle url now =>
    intro n
    rcases handle_vote_jobs s u c m oracle url now with hj | hj
    · rw [step, hj]
      exact h n
    · rw [step, hj, countJobsNamed_scheduleRecheck]
      by_cases hn : n = jobName u c m
      · simp [hn]
      · simp only [hn, if_false]
        exact h n
  | recheck u c m oracle url now =>
    intro n
    rw [step, recheck_job_jobs]
    exact h n
  | invalidate u c =>
    intro n
    exact h n

theorem jobsBounded_foldl (ops : List Op) (s : BotState) (h : JobsBounded s) :
    JobsBounded (ops.foldl step s) := by
  induction ops generalizing s with
  | nil => exact h
  | cons op rest ih => exact ih (step s op) (jobsBounded_step s op h)

theorem jobsBounded_run (ops : List Op) : JobsBounded (run ops) := by
  refine jobsBounded_foldl ops initState ?_
  intro n
  simp [initState, countJobsNamed]

/-! ### Persistence of a vote record under non-revoking operations -/

theorem check_no_cache_fst (cache : MemCache) (now u c : Int)
    (oracle : OracleResult) (url : Option String) :
    (check_user_membership cache now u c false oracle url).1.1 =
      oracleSaysMember oracle := by
  cases oracle <;> rfl

theorem trackerHas_cons_of_has (r : VoteRec) (t : Tracker) (u c m : Int)
    (h : trackerHas t u c m = true) : trackerHas (r :: t) u c m = true := by
  rw [trackerHas_cons, h, Bool.or_true]

theorem trackerHas_remove_keep (t : Tracker) (u c m u2 c2 m2 : Int)
    (hne : ¬(u = u2 ∧ c = c2 ∧ m = m2))
    (h : trackerHas t u c m = true) :
    trackerHas (trackerRemove t u2 c2 m2) u c m = true := by
  rcases List.any_eq_true.mp h with ⟨r, hr, hk⟩
  have hk2 := hk
  rw [keyMatch] at hk2
  simp only [decide_eq_true_eq] at hk2
  have hkeep : keyMatch u2 c2 m2 r = false := by
    rw [keyMatch]
    simp only [decide_eq_false_iff_not]
    intro hbad
    exact hne ⟨hk2.1.symm.trans hbad.1, hk2.2.1.symm.trans hbad.2.1,
      hk2.2.2.symm.trans hbad.2.2⟩
  refine List.any_eq_true.mpr ⟨r, ?_, hk⟩
  rw [trackerRemove]
  refine List.mem_filter.mpr ⟨hr, ?_⟩
  rw [hkeep]
  rfl

theorem handle_vote_of_record (s : BotState) (u c m : Int)
    (oracle : OracleResult) (url : Option String) (now : Int)
    (h : trackerHas s.votesTracker u c m = true) :
    handle_vote s u c m oracle url now = (s, .alreadyVoted) := by
  rw [handle_vote, if_pos h]

theorem handle_vote_accepted_record (s : BotState) (u c m : Int)
    (oracle : OracleResult) (url : Option String) (now : Int)
    (s1 : BotState) (n : Int)
    (hacc : handle_vote s u c m oracle url now = (s1, .accepted n)) :
    trackerHas s1.votesTracker u c m = true := by
  rw [handle_vote] at hacc
  by_cases hhas : trackerHas s.votesTracker u c m
  · rw [if_pos hhas] at hacc
    simp at hacc
  · rw [Bool.not_eq_true] at hhas
    cases hm : (check_user_membership s.membershipCache now u c false oracle url).1.1 with
    | false =>
      simp only [hhas, hm, Bool.false_eq_true, if_false, eq_self_iff_true,
        if_true] at hacc
      simp at hacc
    | true =>
      simp only [hhas, hm, Bool.false_eq_true, Bool.true_eq_false, if_false] at hacc
      rw [Prod.mk.injEq] at hacc
      rw [← hacc.1]
      simp [trackerHas_cons, keyMatch_self]

theorem handle_vote_preserves_record (s : BotState) (u2 c2 m2 : Int)
    (oracle : OracleResult) (url : Option String) (now : Int) (u c m : Int)
    (h : trackerHas s.votesTracker u c m = true) :
    trackerHas (handle_vote s u2 c2 m2 oracle url now).1.votesTracker u c m = true := by
  rw [handle_vote]
  by_cases hhas : trackerHas s.votesTracker u2 c2 m2
  · rw [if_pos hhas]
    exact h
  · rw [Bool.not_eq_true] at hhas
    cases hm : (check_user_membership s.membershipCache now u2 c2 false oracle url).1.1 with
    | false =>
      simp only [hhas, hm, Bool.false_eq_true, if_false, eq_self_iff_true, if_true]
      exact h
    | true =>
      simp only [hhas, hm, Bool.false_eq_true, Bool.true_eq_false, if_false]
      exact trackerHas_cons_of_has _ _ u c m h

theorem recheck_preserves_record (s : BotState) (u2 c2 m2 : Int)
    (oracle : OracleResult) (url : Option String) (now : Int) (u c m : Int)
    (h : trackerHas s.votesTracker u c m = true)
    (hcond : oracleSaysMember oracle = true ∨ ¬(u2 = u ∧ c2 = c ∧ m2 = m)) :
    trackerHas (schedule_membership_recheck_job s u2 c2 m2 oracle url
      now).votesTracker u c m = true := by
  rw [schedule_membership_recheck_job]
  cases hor : oracleSaysMember oracle with
  | true =>
    simp only [check_no_cache_fst, hor, Bool.true_eq_false, if_false]
    exact h
  | false =>
    simp only [check_no_cache_fst, hor, eq_self_iff_true, if_true]
    rw [revoke_vote]
    by_cases hhas2 : trackerHas s.votesTracker u2 c2 m2
    · rw [if_pos hhas2]
      rcases hcond with hmem | hne
      · rw [hor] at hmem
        simp at hmem
      · exact trackerHas_remove_keep s.votesTracker u c m u2 c2 m2
          (fun hbad => hne ⟨hbad.1.symm, hbad.2.1.symm, hbad.2.2.symm⟩) h
    · rw [Bool.not_eq_true] at hhas2
      simp only [hhas2, Bool.false_eq_true, if_false]
      exact h

theorem record_persists_foldl (ops : List Op) (s : BotState) (u c m : Int)
    (h : trackerHas s.votesTracker u c m = true)
    (hnorev : ∀ op ∈ ops, ¬ RevokesVote op u c m) :
    trackerHas ((ops.foldl step s)).votesTracker u c m = true := by
  induction ops generalizing s with
  | nil => exact h
  | cons op rest ih =>
    have hstep : trackerHas (step s op).votesTracker u c m = true := by
      cases op with
      | vote u2 c2 m2 oracle url now =>
        exact handle_vote_preserves_record s u2 c2 m2 oracle url now u c m h
      | recheck u2 c2 m2 oracle url now =>
        refine recheck_preserves_record s u2 c2 m2 oracle url now u c m h ?_
        by_cases hk : u2 = u ∧ c2 = c ∧ m2 = m
        · left
          rcases hk with ⟨rfl, rfl, rfl⟩
          cases hsays : oracleSaysMember oracle with
          | true => rfl
          | false =>
            exact absurd ⟨oracle, url, now, rfl, hsays⟩
              (hnorev _ (List.mem_cons_self _ _))
        · right
          exact hk
      | invalidate u2 c2 => exact h
    exact ih (step s op) hstep (fun op2 hop2 => hnorev op2 (List.mem_cons_of_mem _ hop2))

/-! ### Claim theorems -/

/-- C1: once `handle_vote` has accepted a vote by user `u` on post `(c, m)`,
every subsequent `handle_vote` attempt by `u` on `(c, m)` fails at line 614
with the already-voted alert and returns the state completely unchanged — not
only immediately after acceptance, but after *any* interleaved sequence of
further operations (other users' votes, re-check jobs, cache invalidations)
that contains no `Revoke(P, U)` for this `(post, user)` pair, i.e. no fired
re-check for `(u, c, m)` with a non-member answer.  Hence at most one vote
attempt by `u` on `(c, m)` succeeds before such a revocation occurs. -/
theorem C1_second_vote_rejected (s : BotState) (u c m : Int)
    (oracle : OracleResult) (url : Option String) (now : Int)
    (s1 : BotState) (n : Int) (ops2 : List Op)
    (oracle2 : OracleResult) (url2 : Option String) (now2 : Int)
    (hacc : handle_vote s u c m oracle url now = (s1, .accepted n))
    (hnorev : ∀ op ∈ ops2, ¬ RevokesVote op u c m) :
    handle_vote (ops2.foldl step s1) u c m oracle2 url2 now2 =
      (ops2.foldl step s1, .alreadyVoted) := by
  have hrec : trackerHas s1.votesTracker u c m = true :=
    handle_vote_accepted_record s u c m oracle url now s1 n hacc
  have hrec2 : trackerHas (ops2.foldl step s1).votesTracker u c m = true :=
    record_persists_foldl ops2 s1 u c m hrec hnorev
  exact handle_vote_of_record (ops2.foldl step s1) u c m oracle2 url2 now2 hrec2

/-- Witness for C1 at a concrete input: user 1's vote on post `(2, 3)` is
accepted with count 1; then user 2 votes on the same post and a re-check job
for user 1 fires with a positive membership answer (no revocation); user 1's
later second click is still rejected with the state unchanged. -/
theorem C1_second_vote_rejected_witness :
    handle_vote initState 1 2 3 (.ok .member) none 0 =
      ((handle_vote initState 1 2 3 (.ok .member) none 0).1, .accepted 1) ∧
    (∀ op ∈ [Op.vote 2 2 3 (.ok .member) none 5,
        Op.recheck 1 2 3 (.ok .member) none 301], ¬ RevokesVote op 1 2 3) ∧
    handle_vote
        ([Op.vote 2 2 3 (.ok .member) none 5,
          Op.recheck 1 2 3 (.ok .member) none 301].foldl step
          (handle_vote initState 1 2 3 (.ok .member) none 0).1) 1 2 3
        (.ok .member) none 400 =
      ([Op.vote 2 2 3 (.ok .member) none 5,
        Op.recheck 1 2 3 (.ok .member) none 301].foldl step
          (handle_vote initState 1 2 3 (.ok .member) none 0).1, .alreadyVoted) := by
  have hnorev : ∀ op ∈ [Op.vote 2 2 3 (.ok .member) none 5,
      Op.recheck 1 2 3 (.ok .member) none 301], ¬ RevokesVote op 1 2 3 := by
    intro op hop
    simp only [List.mem_cons, List.mem_singleton, List.not_mem_nil, or_false] at hop
    rcases hop with rfl | rfl
    · simp [RevokesVote]
    · simp [RevokesVote, oracleSaysMember, statusIsMember]
  exact ⟨rfl, hnorev,
    C1_second_vote_rejected initState 1 2 3 (.ok .member) none 0 _ 1
      [Op.vote 2 2 3 (.ok .member) none 5, Op.recheck 1 2 3 (.ok .member) none 301]
      (.ok .member) none 400 rfl hnorev⟩

/-- C2: after any sequence of vote clicks, re-check jobs and cache
invalidations from the initial module state, `VOTES_COUNT[c][m]` equals the
number of currently-held vote records for the post `(c, m)` — the count never
drifts from the voter set. -/
theorem C2_count_equals_records (ops : List Op) (c m : Int) :
    (run ops).votesCount c m = (numRecords (run ops).votesTracker c m : Int) :=
  (voteInv_run ops).2 c m

/-- C9: after any sequence of vote clicks, re-check jobs and cache
invalidations from the initial module state, no stored vote count is ever
negative: voting increments, and the revocation path clamps at zero via
`max(0, count - 1)`. -/
theorem C9_count_nonneg (ops : List Op) (c m : Int) :
    0 ≤ (run ops).votesCount c m := by
  rw [(voteInv_run ops).2 c m]
  omega

/-- C6: scheduling a re-check replaces any prior pending job with the same
name — afterwards exactly one job with that name is pending, and jobs with
other names are untouched; consequently every reachable state holds at most
one pending re-check job per `(post, user)` name. -/
theorem C6_recheck_debounced :
    (∀ (jobs : List RecheckJob) (u c m : Int) (n : String),
       countJobsNamed (scheduleRecheck jobs u c m) n =
         if n = jobName u c m then 1 else countJobsNamed jobs n) ∧
    (∀ (ops : List Op) (n : String), countJobsNamed (run ops).jobs n ≤ 1) :=
  ⟨countJobsNamed_scheduleRecheck, fun ops n => jobsBounded_run ops n⟩

/-- C10: with the cache bypassed, the membership check classifies the user as
a member exactly when the oracle reports `member`, `administrator`, `creator`
or `restricted`; every other status and every caught lookup failure is
classified as not a member. -/
theorem C10_membership_classification (cache : MemCache) (now u c : Int)
    (url : Option String) :
    (∀ st : ChatMemberStatus,
       (check_user_membership cache now u c false (.ok st) url).1.1 = true ↔
         (st = .member ∨ st = .administrator ∨ st = .creator ∨ st = .restricted)) ∧
    (check_user_membership cache now u c false .forbidden url).1.1 = false ∧
    (check_user_membership cache now u c false .badRequest url).1.1 = false ∧
    (check_user_membership cache now u c false .otherError url).1.1 = false := by
  refine ⟨?_, rfl, rfl, rfl⟩
  intro st
  cases st <;> simp [check_user_membership, membershipOracleBranch, statusIsMember]

/-- C4: the membership cache semantics of `check_user_membership` with
`use_cache=True` — a read within `CACHE_DURATION` of the cached observation
returns the stored value without consulting the oracle; a read at or past the
TTL behaves exactly like the oracle branch (a forced oracle call); and after
`invalidate_membership_cache` the next read behaves like the oracle branch
regardless of the entry's age. -/
theorem C4_cache_ttl (cache : MemCache) (now u c t0 : Int) (b : Bool)
    (oracle : OracleResult) (url : Option String) :
    (cache u c = some (b, t0) → now - t0 < CACHE_DURATION →
       check_user_membership cache now u c true oracle url = ((b, url), cache)) ∧
    (cache u c = some (b, t0) → CACHE_DURATION ≤ now - t0 →
       check_user_membership cache now u c true oracle url =
         membershipOracleBranch cache now oracle url u c) ∧
    (check_user_membership (invalidate_membership_cache cache u c) now u c true oracle url =
       membershipOracleBranch (invalidate_membership_cache cache u c) now oracle url u c) := by
  refine ⟨?_, ?_, ?_⟩
  · intro he hlt
    rw [check_user_membership, if_pos rfl, he]
    show (if now - t0 < CACHE_DURATION then ((b, url), cache)
          else membershipOracleBranch cache now oracle url u c) = ((b, url), cache)
    rw [if_pos hlt]
  · intro he hge
    rw [check_user_membership, if_pos rfl, he]
    show (if now - t0 < CACHE_DURATION then ((b, url), cache)
          else membershipOracleBranch cache now oracle url u c) =
      membershipOracleBranch cache now oracle url u c
    rw [if_neg (not_lt.mpr hge)]
  · rw [check_user_membership, if_pos rfl]
    have hnone : invalidate_membership_cache cache u c u c = none := by
      simp [invalidate_membership_cache]
    rw [hnone]

/-- Witness for C4 at a concrete input: an entry observed at time 0 is
returned as-is at time 100, is refreshed through the oracle at time 400, and
is refreshed through the oracle immediately after invalidation. -/
theorem C4_cache_ttl_witness :
    ((fun u0 c0 => if u0 = 1 ∧ c0 = 2 then some (true, 0) else none) 1 2 =
        some (true, (0 : Int)) ∧ (100 : Int) - 0 < CACHE_DURATION ∧
      check_user_membership
        (fun u0 c0 => if u0 = 1 ∧ c0 = 2 then some (true, 0) else none) 100 1 2 true
        (.ok .left) none =
      ((true, none), fun u0 c0 => if u0 = 1 ∧ c0 = 2 then some (true, 0) else none)) ∧
    (CACHE_DURATION ≤ (400 : Int) - 0 ∧
      check_user_membership
        (fun u0 c0 => if u0 = 1 ∧ c0 = 2 then some (true, 0) else none) 400 1 2 true
        (.ok .left) none =
      membershipOracleBranch
        (fun u0 c0 => if u0 = 1 ∧ c0 = 2 then some (true, 0) else none) 400 (.ok .left)
        none 1 2) ∧
    (check_user_membership
        (invalidate_membership_cache
          (fun u0 c0 => if u0 = 1 ∧ c0 = 2 then some (true, 0) else none) 1 2) 100 1 2 true
        (.ok .left) none =
      membershipOracleBranch
        (invalidate_membership_cache
          (fun u0 c0 => if u0 = 1 ∧ c0 = 2 then some (true, 0) else none) 1 2) 100
        (.ok .left) none 1 2) :=
  ⟨⟨rfl, by decide,
    (C4_cache_ttl (fun u0 c0 => if u0 = 1 ∧ c0 = 2 then some (true, 0) else none)
      100 1 2 0 true (.ok .left) none).1 rfl (by decide)⟩,
   ⟨by decide,
    (C4_cache_ttl (fun u0 c0 => if u0 = 1 ∧ c0 = 2 then some (true, 0) else none)
      400 1 2 0 true (.ok .left) none).2.1 rfl (by decide)⟩,
   (C4_cache_ttl (fun u0 c0 => if u0 = 1 ∧ c0 = 2 then some (true, 0) else none)
      100 1 2 0 true (.ok .left) none).2.2⟩

/-- C5 counterexample: at a concrete input the result `check_user_membership`
returns to its caller on a `Forbidden` error (the operator-facing
permission-denied case) is *equal* to the result it returns for an ordinary
non-member (oracle answers status `left`) — `(False, url)` in both cases — so
the permission problem is not distinguishable from ordinary non-membership in
the function's return value, contrary to the claim. -/
theorem C5_not_distinguishable_counterexample :
    (check_user_membership (fun _ _ => none) 0 1 2 false .forbidden
        (some "url")).1 = (false, some "url") ∧
    (check_user_membership (fun _ _ => none) 0 1 2 false (.ok .left)
        (some "url")).1 = (false, some "url") :=
  ⟨rfl, rfl⟩

/-- C5 (amended): on a `Forbidden` (`PermissionDenied`) or `BadRequest`
(`UnknownSubject`) oracle failure the membership check fails closed — the user
is treated as not a member — but the value returned to the caller is identical
to the one returned for an ordinary non-member with the same url, so the
failure is not distinguishable by the operator-facing layer. -/
theorem C5_fail_closed_indistinguishable (cache : MemCache) (now u c : Int)
    (url : Option String) (oracle : OracleResult)
    (h : oracle = .forbidden ∨ oracle = .badRequest) :
    (check_user_membership cache now u c false oracle url).1.1 = false ∧
    (check_user_membership cache now u c false oracle url).1 =
      (check_user_membership cache now u c false (.ok .left) url).1 := by
  rcases h with rfl | rfl <;> exact ⟨rfl, rfl⟩

/-- Witness for the amended C5 at a concrete input. -/
theorem C5_fail_closed_indistinguishable_witness :
    ((.forbidden : OracleResult) = .forbidden ∨
      (.forbidden : OracleResult) = .badRequest) ∧
    ((check_user_membership (fun _ _ => none) 0 1 2 false .forbidden
        (some "url")).1.1 = false ∧
     (check_user_membership (fun _ _ => none) 0 1 2 false .forbidden
        (some "url")).1 =
       (check_user_membership (fun _ _ => none) 0 1 2 false (.ok .left)
        (some "url")).1) :=
  ⟨Or.inl rfl,
   C5_fail_closed_indistinguishable (fun _ _ => none) 0 1 2 (some "url") .forbidden
     (Or.inl rfl)⟩

/-- C7: the revocation block is idempotent.  In a state satisfying the ledger
invariant where user `u` holds a vote record on post `(c, m)`, the first
revocation reports `hadVote = true` and decrements the count by exactly one,
and the second revocation reports `hadVote = false` and leaves the state
unchanged. -/
theorem C7_revoke_idempotent (s : BotState) (u c m : Int)
    (hinv : VoteInv s) (hhas : trackerHas s.votesTracker u c m = true) :
    (revoke_vote s u c m).2 = true ∧
    (revoke_vote (revoke_vote s u c m).1 u c m).2 = false ∧
    (revoke_vote (revoke_vote s u c m).1 u c m).1 = (revoke_vote s u c m).1 ∧
    (revoke_vote s u c m).1.votesCount c m = s.votesCount c m - 1 := by
  have hpos : 1 ≤ numRecords s.votesTracker c m := numRecords_pos_of_has hhas
  have hcnt : s.votesCount c m = (numRecords s.votesTracker c m : Int) := hinv.2 c m
  have hstate : revoke_vote s u c m =
      (⟨trackerRemove s.votesTracker u c m,
        countsSet s.votesCount c m (max 0 (s.votesCount c m - 1)),
        s.membershipCache, s.jobs⟩, true) := by
    rw [revoke_vote, if_pos hhas]
  have hhas2 : trackerHas (trackerRemove s.votesTracker u c m) u c m = false :=
    trackerHas_remove_self s.votesTracker u c m
  refine ⟨by rw [hstate], ?_, ?_, ?_⟩
  · rw [hstate, revoke_vote]
    simp [hhas2]
  · rw [hstate, revoke_vote]
    simp [hhas2]
  · rw [hstate]
    show countsSet s.votesCount c m (max 0 (s.votesCount c m - 1)) c m =
      s.votesCount c m - 1
    simp only [countsSet, and_self, if_true]
    rw [hcnt, max_eq_right]
    omega

/-- Witness for C7 at a concrete reachable state: after user 1's vote on post
`(2, 3)` is accepted, revoking twice yields `hadVote` true then false, a no-op
second call, and a net count decrease of exactly one. -/
theorem C7_revoke_idempotent_witness :
    VoteInv (run [Op.vote 1 2 3 (.ok .member) none 0]) ∧
    trackerHas (run [Op.vote 1 2 3 (.ok .member) none 0]).votesTracker 1 2 3 = true ∧
    ((revoke_vote (run [Op.vote 1 2 3 (.ok .member) none 0]) 1 2 3).2 = true ∧
     (revoke_vote (revoke_vote (run [Op.vote 1 2 3 (.ok .member) none 0]) 1 2 3).1
        1 2 3).2 = false ∧
     (revoke_vote (revoke_vote (run [Op.vote 1 2 3 (.ok .member) none 0]) 1 2 3).1
        1 2 3).1 = (revoke_vote (run [Op.vote 1 2 3 (.ok .member) none 0]) 1 2 3).1 ∧
     (revoke_vote (run [Op.vote 1 2 3 (.ok .member) none 0]) 1 2 3).1.votesCount 2 3 =
       (run [Op.vote 1 2 3 (.ok .member) none 0]).votesCount 2 3 - 1) :=
  ⟨voteInv_run _, rfl,
   C7_revoke_idempotent (run [Op.vote 1 2 3 (.ok .member) none 0]) 1 2 3
     (voteInv_run _) rfl⟩

/-- C8 counterexample: in the concrete reachable state where user 1 holds an
accepted vote on post `(2, 3)`, an oracle *failure* (a generic exception,
i.e. the transient-unavailable case) during the scheduled re-check job deletes
the vote record — the failure *does* cause the vote to be revoked — and the
job queue is left unchanged: no replacement re-check is scheduled, contrary to
the claim that a failure must reschedule with backoff and must not revoke. -/
theorem C8_failure_drops_vote_counterexample :
    trackerHas c8state.votesTracker 1 2 3 = true ∧
    trackerHas (schedule_membership_recheck_job c8state 1 2 3 .otherError none
        1000).votesTracker 1 2 3 = false ∧
    (schedule_membership_recheck_job c8state 1 2 3 .otherError none 1000).jobs =
      c8state.jobs :=
  ⟨rfl, rfl, rfl⟩

/-- C8 (amended): when the membership oracle fails during a scheduled re-check
(any of the caught exception classes), the job treats the failure as
non-membership: the vote record is removed (the vote is revoked on mere
failure) and no new re-check job is scheduled — there is no backoff or
rescheduling. -/
theorem C8_failure_revokes_and_drops_recheck (s : BotState) (u c m : Int)
    (url : Option String) (now : Int) (oracle : OracleResult)
    (herr : oracle = .forbidden ∨ oracle = .badRequest ∨ oracle = .otherError)
    (hhas : trackerHas s.votesTracker u c m = true) :
    trackerHas (schedule_membership_recheck_job s u c m oracle url
        now).votesTracker u c m = false ∧
    (schedule_membership_recheck_job s u c m oracle url now).jobs = s.jobs := by
  have hfalse : (check_user_membership
      (invalidate_membership_cache s.membershipCache u c) now u c false oracle
      url).1.1 = false := by
    rcases herr with rfl | rfl | rfl <;> rfl
  refine ⟨?_, recheck_job_jobs s u c m oracle url now⟩
  rw [schedule_membership_recheck_job]
  simp only [hfalse, eq_self_iff_true, if_true]
  rw [revoke_vote, if_pos hhas]
  exact trackerHas_remove_self s.votesTracker u c m

/-- Witness for the amended C8 at the concrete reachable state. -/
theorem C8_failure_revokes_and_drops_recheck_witness :
    ((.otherError : OracleResult) = .forbidden ∨
      (.otherError : OracleResult) = .badRequest ∨
      (.otherError : OracleResult) = .otherError) ∧
    trackerHas c8state.votesTracker 1 2 3 = true ∧
    (trackerHas (schedule_membership_recheck_job c8state 1 2 3 .otherError none
        2000).votesTracker 1 2 3 = false ∧
     (schedule_membership_recheck_job c8state 1 2 3 .otherError none 2000).jobs =
       c8state.jobs) :=
  ⟨Or.inr (Or.inr rfl), rfl,
   C8_failure_revokes_and_drops_recheck c8state 1 2 3 none 2000 .otherError
     (Or.inr (Or.inr rfl)) rfl⟩

/-- C3: two distinct eligible users click the vote button on the same fresh
post concurrently.  Under every interleaving of the two handler instances at
their `await` boundaries, both attempts are accepted and the resulting count
reflects both insertions — it equals 2, never 1 (the registration block is a
single atomic step per handler, so no increment is lost). -/
theorem C3_concurrent_distinct_users (s : BotState) (u1 u2 c m : Int)
    (st1 st2 : ChatMemberStatus) (url1 url2 : Option String) (t1 t2 : Int)
    (sched : List Bool) (hsched : sched ∈ interleavings2)
    (hne : u1 ≠ u2)
    (h1 : trackerHas s.votesTracker u1 c m = false)
    (h2 : trackerHas s.votesTracker u2 c m = false)
    (hfresh : s.votesCount c m = 0)
    (hm1 : statusIsMember st1 = true) (hm2 : statusIsMember st2 = true) :
    (∃ n1, (runSched ⟨u1, c, m, .ok st1, url1, t1⟩ ⟨u2, c, m, .ok st2, url2, t2⟩
        sched (s, .start, .start)).2.1 = .finished (.accepted n1)) ∧
    (∃ n2, (runSched ⟨u1, c, m, .ok st1, url1, t1⟩ ⟨u2, c, m, .ok st2, url2, t2⟩
        sched (s, .start, .start)).2.2 = .finished (.accepted n2)) ∧
    (runSched ⟨u1, c, m, .ok st1, url1, t1⟩ ⟨u2, c, m, .ok st2, url2, t2⟩
        sched (s, .start, .start)).1.votesCount c m = 2 := by
  have hne2 : u2 ≠ u1 := Ne.symm hne
  simp only [trackerHas, keyMatch] at h1 h2
  simp only [interleavings2, List.mem_cons, List.mem_singleton,
    List.not_mem_nil, or_false] at hsched
  rcases hsched with rfl | rfl | rfl | rfl | rfl | rfl <;>
    simp [runSched, taskStep, check_user_membership, membershipOracleBranch,
      trackerHas, keyMatch, countsSet, hm1, hm2, hne, hne2, hfresh, h1, h2]

/-- Witness for C3 at a concrete input: users 1 and 2 click on fresh post
`(5, 7)` under the alternating interleaving; both are accepted and the final
count is 2. -/
theorem C3_concurrent_distinct_users_witness :
    ([true, false, true, false] ∈ interleavings2 ∧ (1 : Int) ≠ 2 ∧
      trackerHas initState.votesTracker 1 5 7 = false ∧
      trackerHas initState.votesTracker 2 5 7 = false ∧
      initState.votesCount 5 7 = 0 ∧
      statusIsMember .member = true ∧ statusIsMember .administrator = true) ∧
    ((∃ n1, (runSched ⟨1, 5, 7, .ok .member, none, 10⟩
        ⟨2, 5, 7, .ok .administrator, none, 11⟩
        [true, false, true, false] (initState, .start, .start)).2.1 =
      .finished (.accepted n1)) ∧
     (∃ n2, (runSched ⟨1, 5, 7, .ok .member, none, 10⟩
        ⟨2, 5, 7, .ok .administrator, none, 11⟩
        [true, false, true, false] (initState, .start, .start)).2.2 =
      .finished (.accepted n2)) ∧
     (runSched ⟨1, 5, 7, .ok .member, none, 10⟩
        ⟨2, 5, 7, .ok .administrator, none, 11⟩
        [true, false, true, false] (initState, .start, .start)).1.votesCount 5 7 = 2) :=
  ⟨⟨by decide, by decide, rfl, rfl, rfl, rfl, rfl⟩,
   C3_concurrent_distinct_users initState 1 2 5 7 .member .administrator none none
     10 11 [true, false, true, false] (by decide) (by decide) rfl rfl rfl rfl rfl⟩
